import Mathlib

/-!
Verification of the FlexMaster leveling/XP subsystem and the
response-validation subsystem, shallowly embedded from the Python source
(`main.py`, `ai_engine.py`, `dbinit.py`).  Machine integers are modelled
as `Int`/`Nat`; SQL aggregates become list folds; the provider response
and the JSON library are explicit inputs.
-/

namespace FlexMaster

/-! ## Leveling engine (main.py lines 42-53)

`calculate_level` embeds

    if xp <= 0: return 0
    return max(0, math.floor(math.sqrt(xp / 50)))

with the exact-arithmetic reading of `floor(sqrt(xp / 50))` : for a
nonnegative integer `n`, `Nat.sqrt (n / 50)` equals `⌊Real.sqrt (n / 50)⌋`
(proved below as `floor_sqrt_div50`), so the embedding computes with
`Nat.sqrt` while the theorems speak about the real square root. -/

def calculate_level (xp : Int) : Int :=
  if xp ≤ 0 then 0 else max 0 ((Nat.sqrt (xp.toNat / 50) : Int))

/-- Embeds `(current_level + 1) ** 2 * 50` (main.py line 53). -/
def xp_for_next_level (current_level : Int) : Int :=
  (current_level + 1) ^ 2 * 50

/-- For a natural number `n`, the integer square root of `n / 50` (natural
division) coincides with the floor of the real square root of the real
quotient `n / 50`. -/
lemma floor_sqrt_div50 (n : ℕ) :
    ⌊Real.sqrt ((n : ℝ) / 50)⌋ = (Nat.sqrt (n / 50) : ℤ) := by
  have h50 : (0 : ℝ) < 50 := by norm_num
  set k := Nat.sqrt (n / 50) with hk
  have hlow : ((k : ℝ)) ≤ Real.sqrt ((n : ℝ) / 50) := by
    have h1 : k ^ 2 ≤ n / 50 := Nat.sqrt_le' _
    have h2 : ((k ^ 2 : ℕ) : ℝ) ≤ ((n / 50 : ℕ) : ℝ) := by exact_mod_cast h1
    have h3 : ((n / 50 : ℕ) : ℝ) ≤ (n : ℝ) / 50 := Nat.cast_div_le
    have h4 : ((k : ℝ)) ^ 2 ≤ (n : ℝ) / 50 := by
      calc ((k : ℝ)) ^ 2 = ((k ^ 2 : ℕ) : ℝ) := by push_cast; ring
        _ ≤ ((n / 50 : ℕ) : ℝ) := h2
        _ ≤ (n : ℝ) / 50 := h3
    exact Real.le_sqrt_of_sq_le h4
  have hhigh : Real.sqrt ((n : ℝ) / 50) < (k : ℝ) + 1 := by
    have h1 : n / 50 < (k + 1) ^ 2 := Nat.lt_succ_sqrt' _
    have h2 : n < (k + 1) ^ 2 * 50 := by
      have := (Nat.div_lt_iff_lt_mul (by norm_num : 0 < 50)).mp h1
      exact this
    have h3 : (n : ℝ) / 50 < ((k : ℝ) + 1) ^ 2 := by
      rw [div_lt_iff₀ h50]
      exact_mod_cast h2
    have hpos : (0 : ℝ) < (k : ℝ) + 1 := by positivity
    exact (Real.sqrt_lt' hpos).mpr h3
  have hfloor : ⌊Real.sqrt ((n : ℝ) / 50)⌋ = (k : ℤ) := by
    rw [Int.floor_eq_iff]
    constructor
    · exact_mod_cast hlow
    · push_cast
      exact hhigh
  exact hfloor

/-- C2: for every integer `xp`, `calculate_level xp` is `0` when `xp ≤ 0`
and otherwise `floor (sqrt (xp / 50))` clamped below by `0`; being a plain
function of its argument it is pure, deterministic and total. -/
theorem calculate_level_spec (xp : Int) :
    calculate_level xp =
      if xp ≤ 0 then 0 else max 0 ⌊Real.sqrt ((xp : ℝ) / 50)⌋ := by
  unfold calculate_level
  by_cases h : xp ≤ 0
  · simp [h]
  · simp only [h, if_false]
    have hx : (0 : Int) ≤ xp := le_of_not_le h
    have hcast : ((xp.toNat : ℝ)) = (xp : ℝ) := by
      exact_mod_cast Int.toNat_of_nonneg hx
    rw [← hcast, floor_sqrt_div50 xp.toNat]

/-- C3: `xp_for_next_level L = (L + 1)^2 * 50`, and the two leveling
functions are mutual inverses: `calculate_level (xp_for_next_level L - 1) = L`
and `calculate_level (xp_for_next_level L) = L + 1`, for every `L ≥ 0`. -/
theorem leveling_inverses (L : Int) (hL : 0 ≤ L) :
    xp_for_next_level L = (L + 1) ^ 2 * 50 ∧
    calculate_level (xp_for_next_level L - 1) = L ∧
    calculate_level (xp_for_next_level L) = L + 1 := by
  obtain ⟨n, rfl⟩ := Int.eq_ofNat_of_zero_le hL
  refine ⟨rfl, ?_, ?_⟩
  · unfold calculate_level xp_for_next_level
    have hpos : ¬ ((n : Int) + 1) ^ 2 * 50 - 1 ≤ 0 := by
      have h1 : (1 : Int) ≤ ((n : Int) + 1) ^ 2 := by nlinarith [Int.ofNat_nonneg n]
      nlinarith
    simp only [hpos, if_false]
    have htn : (((n : Int) + 1) ^ 2 * 50 - 1).toNat = (n + 1) ^ 2 * 50 - 1 := by
      have : ((n : Int) + 1) ^ 2 * 50 - 1 = (((n + 1) ^ 2 * 50 - 1 : ℕ) : Int) := by
        have h1 : (1 : ℕ) ≤ (n + 1) ^ 2 * 50 := Nat.one_le_iff_ne_zero.mpr (by positivity)
        rw [Nat.cast_sub h1]
        push_cast
        ring
      rw [this, Int.toNat_natCast]
    rw [htn]
    have hdiv : ((n + 1) ^ 2 * 50 - 1) / 50 = (n + 1) ^ 2 - 1 := by
      have h1 : (0 : ℕ) < (n + 1) ^ 2 := by positivity
      have h2 : (n + 1) ^ 2 * 50 - 1 = ((n + 1) ^ 2 - 1) * 50 + 49 := by omega
      rw [h2]
      omega
    rw [hdiv]
    have hsq : Nat.sqrt ((n + 1) ^ 2 - 1) = n := by
      have hle : n ≤ Nat.sqrt ((n + 1) ^ 2 - 1) := by
        rw [Nat.le_sqrt']
        have : n ^ 2 + 2 * n + 1 = (n + 1) ^ 2 := by ring
        omega
      have hlt : Nat.sqrt ((n + 1) ^ 2 - 1) < n + 1 := by
        rw [Nat.sqrt_lt']
        have : (0 : ℕ) < (n + 1) ^ 2 := by positivity
        omega
      omega
    rw [hsq]
    simp [Int.max_eq_right (Int.ofNat_nonneg n)]
  · unfold calculate_level xp_for_next_level
    have hpos : ¬ ((n : Int) + 1) ^ 2 * 50 ≤ 0 := by push_neg; positivity
    simp only [hpos, if_false]
    have htn : (((n : Int) + 1) ^ 2 * 50).toNat = (n + 1) ^ 2 * 50 := by
      have : ((n : Int) + 1) ^ 2 * 50 = (((n + 1) ^ 2 * 50 : ℕ) : Int) := by push_cast; ring
      rw [this, Int.toNat_natCast]
    rw [htn]
    have hdiv : ((n + 1) ^ 2 * 50) / 50 = (n + 1) ^ 2 := by omega
    rw [hdiv, Nat.sqrt_eq']
    have : (0 : Int) ≤ ((n : ℕ) + 1 : ℕ) := by positivity
    push_cast
    omega

/-- Witness for C3 at `L = 3`: the hypotheses hold and the inverse laws
evaluate as stated. -/
theorem leveling_inverses_witness :
    (0 : Int) ≤ 3 ∧
    (xp_for_next_level 3 = (3 + 1) ^ 2 * 50 ∧
     calculate_level (xp_for_next_level 3 - 1) = 3 ∧
     calculate_level (xp_for_next_level 3) = 3 + 1) :=
  ⟨by decide, leveling_inverses 3 (by decide)⟩

/-! ## Progress ledger and XP state (main.py lines 56-109, 442-488; dbinit.py)

The sqlite store is modelled as an explicit state: the append-only
`completed_exercises` table is a list of rows, and the mutable `users`
columns `total_xp` and the five `<movement_type>_level` fields are
functions from the user id (levels are keyed by the movement-type string,
which determines the column name `movement_type.lower() + "_level"`). -/

structure CompletedExercise where
  user_id : Int
  routine_id : Option Int
  exercise_name : String
  movement_type : String
  xp_earned : Int
deriving DecidableEq

structure DBState where
  events : List CompletedExercise
  total_xp : Int → Int
  levels : Int → String → Int

/-- The `SELECT COALESCE(SUM(xp_earned), 0) ... WHERE user_id = ? AND
movement_type = ?` aggregate (main.py lines 61-64). -/
def ledger_xp (db : DBState) (user_id : Int) (movement_type : String) : Int :=
  ((db.events.filter
      (fun e => e.user_id == user_id && e.movement_type == movement_type)).map
    (fun e => e.xp_earned)).sum

/-- The function `update_movement_level` (main.py lines 56-77): recompute the level for
one (user, movement type) pair from the full ledger sum and store it; the
`xp_amount` argument is accepted and unused, as in the source. -/
def update_movement_level (user_id : Int) (movement_type : String)
    (xp_amount : Int) (db : DBState) : DBState :=
  let new_level := calculate_level (ledger_xp db user_id movement_type)
  { db with levels := fun u m =>
      if u == user_id && m == movement_type then new_level else db.levels u m }

/-- The function `add_xp` (main.py lines 80-94): bump the aggregate `total_xp` counter,
then refresh the movement-specific level. -/
def add_xp (user_id : Int) (movement_type : String) (xp_amount : Int)
    (db : DBState) : DBState :=
  let db1 := { db with total_xp := fun u =>
      if u == user_id then db.total_xp u + xp_amount else db.total_xp u }
  update_movement_level user_id movement_type xp_amount db1

/-- The function `save_completed_exercise` (main.py lines 97-109): append one row to the
`completed_exercises` table. -/
def save_completed_exercise (user_id : Int) (routine_id : Option Int)
    (exercise_name : String) (movement_type : String) (xp_earned : Int)
    (db : DBState) : DBState :=
  { db with events :=
      db.events ++ [⟨user_id, routine_id, exercise_name, movement_type, xp_earned⟩] }

/-- The `/api/complete_exercise` handler body (main.py lines 442-466):
save the row, then add XP and refresh the level. -/
def complete_exercise (user_id : Int) (routine_id : Option Int)
    (exercise_name : String) (movement_type : String) (xp_earned : Int)
    (db : DBState) : DBState :=
  add_xp user_id movement_type xp_earned
    (save_completed_exercise user_id routine_id exercise_name movement_type
      xp_earned db)

/-- The `/api/complete_routine` handler body (main.py lines 469-488): it
only runs `UPDATE users SET total_xp = total_xp + ?`; no
`completed_exercises` row is inserted. -/
def complete_routine (user_id : Int) (bonus_xp : Int) (db : DBState) : DBState :=
  { db with total_xp := fun u =>
      if u == user_id then db.total_xp u + bonus_xp else db.total_xp u }

/-- Replay a list of move completions through `complete_exercise`. -/
def apply_completions (es : List CompletedExercise) (db : DBState) : DBState :=
  es.foldl
    (fun d e =>
      complete_exercise e.user_id e.routine_id e.exercise_name e.movement_type
        e.xp_earned d) db

/-- The cache invariant: the stored per-category level equals
`calculate_level` of the ledger sum for that user and movement type. -/
def level_cache_ok (db : DBState) (user_id : Int) (movement_type : String) : Prop :=
  db.levels user_id movement_type = calculate_level (ledger_xp db user_id movement_type)

lemma ledger_xp_complete_exercise (db : DBState) (e : CompletedExercise)
    (u : Int) (mt : String) :
    ledger_xp
        (complete_exercise e.user_id e.routine_id e.exercise_name
          e.movement_type e.xp_earned db) u mt =
      ledger_xp db u mt +
        (if e.user_id == u && e.movement_type == mt then e.xp_earned else 0) := by
  unfold complete_exercise add_xp update_movement_level save_completed_exercise
    ledger_xp
  simp only [List.filter_append, List.map_append, List.sum_append]
  by_cases h : e.user_id == u && e.movement_type == mt
  · simp [List.filter, h]
  · simp [List.filter, h]

lemma levels_complete_exercise (db : DBState) (e : CompletedExercise)
    (u : Int) (mt : String) :
    (complete_exercise e.user_id e.routine_id e.exercise_name e.movement_type
        e.xp_earned db).levels u mt =
      if u == e.user_id && mt == e.movement_type then
        calculate_level
          (ledger_xp
            (save_completed_exercise e.user_id e.routine_id e.exercise_name
              e.movement_type e.xp_earned db) e.user_id e.movement_type)
      else db.levels u mt := by
  rfl

lemma level_cache_ok_complete_exercise (db : DBState) (e : CompletedExercise)
    (u : Int) (mt : String) (h : level_cache_ok db u mt) :
    level_cache_ok
      (complete_exercise e.user_id e.routine_id e.exercise_name e.movement_type
        e.xp_earned db) u mt := by
  unfold level_cache_ok
  rw [levels_complete_exercise, ledger_xp_complete_exercise]
  by_cases hmatch : u == e.user_id && mt == e.movement_type
  · have h1 : e.user_id = u ∧ e.movement_type = mt := by
      simp only [Bool.and_eq_true, beq_iff_eq] at hmatch
      exact ⟨hmatch.1.symm, hmatch.2.symm⟩
    simp only [hmatch, if_true]
    have h2 : (e.user_id == u && e.movement_type == mt) = true := by
      simp [h1.1, h1.2]
    rw [h2]
    simp only [if_true]
    have h3 :
        ledger_xp
            (save_completed_exercise e.user_id e.routine_id e.exercise_name
              e.movement_type e.xp_earned db) e.user_id e.movement_type =
          ledger_xp db e.user_id e.movement_type + e.xp_earned := by
      unfold save_completed_exercise ledger_xp
      simp [List.filter_append, List.filter]
    rw [h3, h1.1, h1.2]
  · have h2 : (e.user_id == u && e.movement_type == mt) = false := by
      cases hu : (e.user_id == u) with
      | false => simp [hu]
      | true =>
        cases hm : (e.movement_type == mt) with
        | false => simp [hu, hm]
        | true =>
          exfalso
          apply hmatch
          simp only [beq_iff_eq] at hu hm
          simp [hu, hm]
    simp only [hmatch, if_false, h2]
    simpa using h

lemma level_cache_ok_apply_completions (db : DBState) (u : Int) (mt : String)
    (h : level_cache_ok db u mt) (es : List CompletedExercise) :
    level_cache_ok (apply_completions es db) u mt := by
  induction es generalizing db with
  | nil => exact h
  | cons e rest ih =>
    exact ih _ (level_cache_ok_complete_exercise db e u mt h)

lemma ledger_xp_apply_completions (db : DBState) (u : Int) (mt : String)
    (es : List CompletedExercise) :
    ledger_xp (apply_completions es db) u mt =
      ledger_xp db u mt +
        ((es.filter (fun e => e.user_id == u && e.movement_type == mt)).map
          (fun e => e.xp_earned)).sum := by
  induction es generalizing db with
  | nil => simp [apply_completions]
  | cons e rest ih =>
    show ledger_xp (apply_completions rest _) u mt = _
    rw [ih]
    rw [ledger_xp_complete_exercise]
    by_cases h : e.user_id == u && e.movement_type == mt
    · simp [List.filter, h]
      ring
    · simp [List.filter, h]

/-- C1: starting from a state whose cached level for `(u, mt)` agrees with
the ledger, after any sequence of appended `ProgressEvent`s processed by
`complete_exercise` (each of which runs `update_movement_level`), the
stored level equals `calculate_level` of the sum of `xp_earned` over all
of that user's `completed_exercises` rows for that movement type; and
appending the same events in any other order yields the same stored
level, which is exactly the value of one recomputation from the full
ledger. -/
theorem level_is_pure_function_of_ledger (db : DBState) (u : Int) (mt : String)
    (h : level_cache_ok db u mt) (es es' : List CompletedExercise)
    (hperm : es.Perm es') :
    (apply_completions es db).levels u mt =
      calculate_level (ledger_xp (apply_completions es db) u mt) ∧
    (apply_completions es db).levels u mt =
      (apply_completions es' db).levels u mt := by
  have h1 := level_cache_ok_apply_completions db u mt h es
  have h2 := level_cache_ok_apply_completions db u mt h es'
  refine ⟨h1, ?_⟩
  rw [h1, h2, ledger_xp_apply_completions, ledger_xp_apply_completions]
  have hsum :
      ((es.filter (fun e => e.user_id == u && e.movement_type == mt)).map
        (fun e => e.xp_earned)).sum =
      ((es'.filter (fun e => e.user_id == u && e.movement_type == mt)).map
        (fun e => e.xp_earned)).sum :=
    ((hperm.filter _).map _).sum_eq
  rw [hsum]

/-- Witness for C1: a concrete fresh state, two events appended in the two
possible orders. -/
theorem level_is_pure_function_of_ledger_witness :
    level_cache_ok ⟨[], fun _ => 0, fun _ _ => 0⟩ 7 "Mobility" ∧
    List.Perm
      [(⟨7, some 1, "arm circles", "Mobility", 10⟩ : CompletedExercise),
       ⟨7, some 1, "leg swings", "Mobility", 30⟩]
      [⟨7, some 1, "leg swings", "Mobility", 30⟩,
       ⟨7, some 1, "arm circles", "Mobility", 10⟩] ∧
    ((apply_completions
        [⟨7, some 1, "arm circles", "Mobility", 10⟩,
         ⟨7, some 1, "leg swings", "Mobility", 30⟩]
        ⟨[], fun _ => 0, fun _ _ => 0⟩).levels 7 "Mobility" =
      calculate_level
        (ledger_xp
          (apply_completions
            [⟨7, some 1, "arm circles", "Mobility", 10⟩,
             ⟨7, some 1, "leg swings", "Mobility", 30⟩]
            ⟨[], fun _ => 0, fun _ _ => 0⟩) 7 "Mobility") ∧
     (apply_completions
        [⟨7, some 1, "arm circles", "Mobility", 10⟩,
         ⟨7, some 1, "leg swings", "Mobility", 30⟩]
        ⟨[], fun _ => 0, fun _ _ => 0⟩).levels 7 "Mobility" =
      (apply_completions
        [⟨7, some 1, "leg swings", "Mobility", 30⟩,
         ⟨7, some 1, "arm circles", "Mobility", 10⟩]
        ⟨[], fun _ => 0, fun _ _ => 0⟩).levels 7 "Mobility") :=
  ⟨by simp [level_cache_ok, ledger_xp, calculate_level],
   List.Perm.swap _ _ _,
   level_is_pure_function_of_ledger _ 7 "Mobility"
     (by simp [level_cache_ok, ledger_xp, calculate_level]) _ _
     (List.Perm.swap _ _ _)⟩

/-! ## API call traces for the XP accounting claim (C9) -/

/-- One call against the two XP-awarding API endpoints. -/
inductive ApiCall where
  | exerciseDone (user_id : Int) (routine_id : Option Int)
      (exercise_name : String) (movement_type : String) (xp_earned : Int)
  | routineDone (user_id : Int) (bonus_xp : Int)
deriving DecidableEq

/-- Dispatch one API call to its handler. -/
def run_call (db : DBState) : ApiCall → DBState
  | .exerciseDone u rid name mt xp => complete_exercise u rid name mt xp db
  | .routineDone u bonus => complete_routine u bonus db

/-- Replay a trace of API calls. -/
def run_calls (calls : List ApiCall) (db : DBState) : DBState :=
  calls.foldl run_call db

/-- The rows a trace inserts into `completed_exercises`: exactly one per
`exerciseDone` call, in call order, and none per `routineDone` call. -/
def trace_events (calls : List ApiCall) : List CompletedExercise :=
  calls.filterMap
    (fun c => match c with
      | .exerciseDone u rid name mt xp => some ⟨u, rid, name, mt, xp⟩
      | .routineDone _ _ => none)

/-- Sum of the `xp_earned` column over one user's ledger rows. -/
def user_event_xp (db : DBState) (u : Int) : Int :=
  ((db.events.filter (fun e => e.user_id == u)).map (fun e => e.xp_earned)).sum

/-- Sum of the routine-completion bonuses a trace awards to one user. -/
def trace_bonus_xp (calls : List ApiCall) (u : Int) : Int :=
  (calls.map
    (fun c => match c with
      | .exerciseDone .. => 0
      | .routineDone u' bonus => if u' == u then bonus else 0)).sum

/-- The empty database: no ledger rows, all counters and cached levels 0. -/
def empty_db : DBState := ⟨[], fun _ => 0, fun _ _ => 0⟩

lemma run_call_events (db : DBState) (c : ApiCall) :
    (run_call db c).events = db.events ++ trace_events [c] := by
  cases c with
  | exerciseDone u rid name mt xp =>
    simp [run_call, complete_exercise, add_xp, update_movement_level,
      save_completed_exercise, trace_events, List.filterMap]
  | routineDone u bonus =>
    simp [run_call, complete_routine, trace_events, List.filterMap]

lemma run_call_total_xp (db : DBState) (c : ApiCall) (u : Int) :
    (run_call db c).total_xp u =
      db.total_xp u +
        (((trace_events [c]).filter (fun e => e.user_id == u)).map
          (fun e => e.xp_earned)).sum +
        trace_bonus_xp [c] u := by
  cases c with
  | exerciseDone u' rid name mt xp =>
    simp only [run_call, complete_exercise, add_xp, update_movement_level,
      save_completed_exercise, trace_events, trace_bonus_xp, List.filterMap]
    by_cases h : u = u'
    · subst h
      simp [List.filter]
    · have h2 : ¬ u' = u := fun hh => h hh.symm
      have h3 : (u' == u) = false := by simp [h2]
      simp [List.filter, h, h2, h3]
  | routineDone u' bonus =>
    simp only [run_call, complete_routine, trace_events, trace_bonus_xp,
      List.filterMap]
    by_cases h : u = u'
    · subst h
      simp
    · have h2 : ¬ u' = u := fun hh => h hh.symm
      simp [h, h2]

lemma run_calls_events (calls : List ApiCall) (db : DBState) :
    (run_calls calls db).events = db.events ++ trace_events calls := by
  induction calls generalizing db with
  | nil => simp [run_calls, trace_events]
  | cons c rest ih =>
    show (run_calls rest (run_call db c)).events = _
    rw [ih, run_call_events]
    cases c <;> simp [trace_events, List.filterMap]

lemma run_calls_total_xp (calls : List ApiCall) (db : DBState) (u : Int) :
    (run_calls calls db).total_xp u =
      db.total_xp u +
        (((trace_events calls).filter (fun e => e.user_id == u)).map
          (fun e => e.xp_earned)).sum +
        trace_bonus_xp calls u := by
  induction calls generalizing db with
  | nil => simp [run_calls, trace_events, trace_bonus_xp]
  | cons c rest ih =>
    show (run_calls rest (run_call db c)).total_xp u = _
    rw [ih, run_call_total_xp]
    cases c with
    | exerciseDone u' rid name mt xp =>
      simp only [trace_events, trace_bonus_xp, List.filterMap, List.map_cons,
        List.sum_cons]
      by_cases h : u' == u <;> simp [List.filter, h] <;> ring
    | routineDone u' bonus =>
      simp only [trace_events, trace_bonus_xp, List.filterMap, List.map_cons,
        List.sum_cons]
      by_cases h : u' == u <;> simp [List.filter, h] <;> ring

/-- C9, counterexample: a single routine completion with the default bonus
of 50 XP creates no `completed_exercises` row at all, so the stored
`total_xp` (50) differs from the sum of XP over the user's ProgressEvents
(0) — the claimed once-per-bonus event creation and the claimed
`total_xp = Σ event XP` both fail at this input. -/
theorem routine_bonus_creates_no_event :
    (run_calls [ApiCall.routineDone 1 50] empty_db).events.length = 0 ∧
    (run_calls [ApiCall.routineDone 1 50] empty_db).total_xp 1 = 50 ∧
    user_event_xp (run_calls [ApiCall.routineDone 1 50] empty_db) 1 = 0 ∧
    (50 : Int) ≠ 0 := by
  refine ⟨rfl, ?_, rfl, by decide⟩
  simp [run_calls, run_call, complete_routine, empty_db]

/-- C9 as amended: for every trace of API calls starting from the empty
database, exactly one `completed_exercises` row is created per move
completion (and none per routine-completion bonus), in call order, and the
stored `total_xp` equals the sum of XP over the user's ProgressEvents plus
the sum of that user's routine-completion bonuses. -/
theorem total_xp_accounting (calls : List ApiCall) (u : Int) :
    (run_calls calls empty_db).events = trace_events calls ∧
    (run_calls calls empty_db).total_xp u =
      user_event_xp (run_calls calls empty_db) u + trace_bonus_xp calls u := by
  have he := run_calls_events calls empty_db
  have ht := run_calls_total_xp calls empty_db u
  have he0 : (run_calls calls empty_db).events = trace_events calls := by
    rw [he]
    simp [empty_db]
  refine ⟨he0, ?_⟩
  rw [ht]
  unfold user_event_xp
  rw [he0]
  simp [empty_db]

/-! ## Python string primitives

`str.strip`, `str.lower` and the substring operator `in`, modelled on the
character list underlying the string.  Python's `strip()` removes the six
ASCII whitespace characters (space, tab, newline, carriage return,
vertical tab, form feed) from both ends. -/

def isPySpace (c : Char) : Bool :=
  c == ' ' || c == '\t' || c == '\n' || c == '\r' || c == '\x0b' || c == '\x0c'

def pyStrip (s : String) : String :=
  String.mk (((s.toList.dropWhile isPySpace).reverse.dropWhile isPySpace).reverse)

def pyLower (s : String) : String :=
  String.mk (s.toList.map Char.toLower)

/-- Here `listStartsWith hay needle` means: `needle` is a prefix of `hay`. -/
def listStartsWith : List Char → List Char → Bool
  | _, [] => true
  | [], _ :: _ => false
  | h :: hs, n :: ns => h == n && listStartsWith hs ns

/-- Here `hasSub hay needle` means: `needle` occurs contiguously inside `hay`. -/
def hasSub : List Char → List Char → Bool
  | [], needle => needle.isEmpty
  | c :: rest, needle => listStartsWith (c :: rest) needle || hasSub rest needle

/-- Python's `needle in hay` substring test. -/
def strContains (hay needle : String) : Bool :=
  hasSub hay.toList needle.toList

/-! ## JSON documents

The universe of values `json.loads` can return: `None`, booleans, numbers
(modelled as integers), strings, arrays and objects.  Python's builtin
`str()` and `int()` conversions, used by the routine parser on untrusted
fields, are modelled below. -/

inductive Json where
  | null
  | bool (b : Bool)
  | num (n : Int)
  | str (s : String)
  | arr (items : List Json)
  | obj (fields : List (String × Json))

/-- Python `dict.get(key, default)` on a parsed object. -/
def jget (fields : List (String × Json)) (key : String) (default : Json) : Json :=
  match fields.find? (fun p => p.1 == key) with
  | some p => p.2
  | none => default

def squote : String := String.mk [Char.ofNat 39]

/-- Python `repr`, as used by `str()` on the elements of containers. -/
def pyRepr : Json → String
  | .null => "None"
  | .bool b => if b then "True" else "False"
  | .num n => toString n
  | .str s => squote ++ s ++ squote
  | .arr items =>
      "[" ++ String.intercalate ", " (items.attach.map (fun x => pyRepr x.1)) ++ "]"
  | .obj fields =>
      "\x7b" ++
        String.intercalate ", "
          (fields.attach.map (fun x => squote ++ x.1.1 ++ squote ++ ": " ++ pyRepr x.1.2)) ++
      "\x7d"
decreasing_by
  · have h := List.sizeOf_lt_of_mem x.2
    simp_wf
    omega
  · have h := List.sizeOf_lt_of_mem x.2
    obtain ⟨⟨a, b⟩, hx⟩ := x
    simp_wf
    simp only [Prod.mk.sizeOf_spec] at h
    omega

/-- Python `str()` applied to a parsed JSON value. -/
def pyStr : Json → String
  | .str s => s
  | v => pyRepr v

/-- Python `int()` applied to a parsed JSON value: succeeds on numbers and
booleans, parses integer literals (with optional surrounding whitespace
and sign) out of strings, and fails on everything else. -/
def pyInt : Json → Option Int
  | .num n => some n
  | .bool b => some (if b then 1 else 0)
  | .str s =>
      let t := (pyStrip s).toList
      let core := match t with
        | c :: rest => if c == '-' || c == '+' then (c == '-', rest) else (false, t)
        | [] => (false, t)
      match core with
      | (neg, digits) =>
        if digits.isEmpty || !(digits.all Char.isDigit) then none
        else
          let v : Int :=
            (digits.foldl (fun acc d => acc * 10 + (d.toNat - 48)) 0 : ℕ)
          some (if neg then -v else v)
  | _ => none

/-! ## Sport classifier (ai_engine.py lines 33-86)

`SPORT_CATEGORIES` is a Python dict literal; its insertion order — which
drives the partial-match scan — is kept as a list of key/category pairs. -/

def SPORT_CATEGORIES : List (String × String) :=
  [("soccer", "Ball Sports"), ("football", "Ball Sports"),
   ("basketball", "Ball Sports"), ("volleyball", "Ball Sports"),
   ("tennis", "Racket Sports"), ("badminton", "Racket Sports"),
   ("table tennis", "Racket Sports"), ("squash", "Racket Sports"),
   ("pickleball", "Racket Sports"),
   ("running", "Endurance"), ("jogging", "Endurance"),
   ("marathon", "Endurance"), ("cycling", "Endurance"),
   ("swimming", "Endurance"), ("triathlon", "Endurance"),
   ("weightlifting", "Strength Training"), ("powerlifting", "Strength Training"),
   ("bodybuilding", "Strength Training"), ("crossfit", "Strength Training"),
   ("gym", "Strength Training"), ("lifting", "Strength Training"),
   ("boxing", "Combat Sports"), ("mma", "Combat Sports"),
   ("kickboxing", "Combat Sports"), ("martial arts", "Combat Sports"),
   ("judo", "Combat Sports"), ("karate", "Combat Sports"),
   ("yoga", "Flexibility"), ("pilates", "Flexibility"),
   ("stretching", "Flexibility"), ("gymnastics", "Flexibility"),
   ("hiking", "Outdoor"), ("climbing", "Outdoor"),
   ("rock climbing", "Outdoor"), ("bouldering", "Outdoor"),
   ("skiing", "Outdoor"), ("snowboarding", "Outdoor"),
   ("dance", "Dance"), ("ballet", "Dance"), ("hip hop", "Dance"),
   ("zumba", "Dance")]

/-- Exact dict membership/lookup (`exercise_lower in self.SPORT_CATEGORIES`). -/
def dictLookup (table : List (String × String)) (k : String) : Option String :=
  match table.find? (fun p => p.1 == k) with
  | some p => some p.2
  | none => none

/-- The partial-match `for` loop (ai_engine.py lines 81-83): first entry
whose key is a substring of the input or contains the input. -/
def scanForPartialMatch : List (String × String) → String → Option String
  | [], _ => none
  | (sport_key, category) :: rest, exercise_lower =>
      if strContains exercise_lower sport_key || strContains sport_key exercise_lower
      then some category
      else scanForPartialMatch rest exercise_lower

/-- The method `AIEngine.categorize_sport` (ai_engine.py lines 72-86). -/
def categorize_sport (exercise : String) : String :=
  let exercise_lower := pyStrip (pyLower exercise)
  match dictLookup SPORT_CATEGORIES exercise_lower with
  | some category => category
  | none =>
    match scanForPartialMatch SPORT_CATEGORIES exercise_lower with
    | some category => category
    | none => "Other"

/-! ## Routine parser (ai_engine.py lines 174-246) -/

/-- The fixed movement-type vocabulary (ai_engine.py line 196). -/
def valid_types : List String :=
  ["Mobility", "Activation", "Stability", "Power", "Balance"]

/-- One validated warm-up move as appended at ai_engine.py lines 200-206. -/
structure Warmup where
  name : String
  duration : Int
  notes : String
  movement_type : String
deriving DecidableEq

/-- The body of the `for item in items` loop (ai_engine.py lines 183-206):
skip non-objects, trim the stringified `name`, coerce the duration taken
from `duration_seconds` (falling back to `duration`, defaulting to 0, any
coercion failure giving 0), trim `notes`, normalise `movement_type` to the
fixed vocabulary, and keep the element only if the name is non-empty and
the duration strictly positive. -/
def extract_warmups : List Json → List Warmup
  | [] => []
  | item :: rest =>
    match item with
    | .obj fields =>
      let n := pyStrip (pyStr (jget fields "name" (.str "")))
      let d := jget fields "duration_seconds" (jget fields "duration" (.num 0))
      let d_int := (pyInt d).getD 0
      let notes := pyStrip (pyStr (jget fields "notes" (.str "")))
      let mt := pyStrip (pyStr (jget fields "movement_type" (.str "Mobility")))
      let movement_type := if valid_types.contains mt then mt else "Mobility"
      if n ≠ "" && d_int > 0 then
        ⟨n, d_int, notes, movement_type⟩ :: extract_warmups rest
      else extract_warmups rest
    | _ => extract_warmups rest

/-- Python `str.find` : index of the first occurrence of `c`, or `-1`. -/
def pyFind (s : String) (c : Char) : Int :=
  match s.toList.findIdx? (fun x => x == c) with
  | some i => (i : Int)
  | none => -1

/-- Python `str.rfind` : index of the last occurrence of `c`, or `-1`. -/
def pyRFind (s : String) (c : Char) : Int :=
  match s.toList.reverse.findIdx? (fun x => x == c) with
  | some i => (s.toList.length - 1 - i : Int)
  | none => -1

/-- Python slicing `text[a : b]` for `0 ≤ a ≤ b`. -/
def pySlice (s : String) (a b : Nat) : String :=
  String.mk ((s.toList.drop a).take (b - a))

/-- The method `AIEngine._safe_json_load` (ai_engine.py lines 229-246), parameterised
by the JSON library `loads`, which either returns a document or fails with
a parser message. -/
def safe_json_load (loads : String → Except String Json) (text : String) :
    Option Json × Option String :=
  if text = "" then (none, some "Empty model output.")
  else
    match loads text with
    | .ok v => (some v, none)
    | .error _ =>
      if pyFind text '\x7b' ≠ -1 ∧ pyRFind text '\x7d' ≠ -1 ∧
          pyRFind text '\x7d' > pyFind text '\x7b' then
        match loads (pySlice text (pyFind text '\x7b').toNat
            ((pyRFind text '\x7d').toNat + 1)) with
        | .ok v => (some v, none)
        | .error e => (none, some ("JSON parse error: " ++ e))
      else (none, some "No JSON object found in model output.")

/-- Python `x or default` on an optional diagnostic string. -/
def pyOrStr (x : Option String) (default : String) : String :=
  match x with
  | some s => if s = "" then default else s
  | none => default

/-- The normalized result dict of `AIEngine.generate_warmups`
(ai_engine.py lines 208-227). -/
structure RoutineResult where
  exercise : String
  sport_category : String
  muscle_groups : String
  warmups : List Warmup
  safety : String
  raw : String
  error : Option String

/-- The method `AIEngine.generate_warmups` after the provider call (ai_engine.py
lines 173-227): strip the raw response, best-effort parse it, validate the
`warmups` list, and assemble the result, attaching a diagnostic instead of
raising when nothing valid was extracted. -/
def generate_warmups (loads : String → Except String Json)
    (exercise muscle_groups : String) (output_text : String) : RoutineResult :=
  let raw_text := pyStrip output_text
  let parsed := safe_json_load loads raw_text
  let routine_obj := parsed.1
  let parse_error := parsed.2
  let extracted : List Warmup × String :=
    match routine_obj with
    | some (.obj fields) =>
      let safety := pyStrip (pyStr (jget fields "safety" (.str "")))
      let items := jget fields "warmups" (.arr [])
      match items with
      | .arr xs => (extract_warmups xs, safety)
      | _ => ([], safety)
    | _ => ([], "")
  let warmups := extracted.1
  let safety := extracted.2
  if warmups.isEmpty then
    { exercise := exercise, sport_category := categorize_sport exercise,
      muscle_groups := muscle_groups, warmups := [], safety := "",
      raw := raw_text,
      error := some (pyOrStr parse_error "Could not parse the model output.") }
  else
    { exercise := exercise, sport_category := categorize_sport exercise,
      muscle_groups := muscle_groups, warmups := warmups, safety := safety,
      raw := raw_text, error := none }

/-! ## Category inference at persistence (main.py lines 238-286) -/

/-- The broader per-sport keyword table of `save_routine`
(main.py lines 251-267), in definition order. -/
def category_keywords : List (String × List String) :=
  [("Running", ["running", "run", "sprint", "jog", "marathon", "5k", "10k"]),
   ("Weightlifting",
    ["squat", "deadlift", "bench press", "overhead press", "lifting",
     "weights", "barbell", "dumbbell"]),
   ("Cycling", ["cycling", "bike", "biking", "spin"]),
   ("Swimming", ["swimming", "swim", "freestyle", "backstroke", "breaststroke"]),
   ("Tennis", ["tennis", "serve", "forehand", "backhand"]),
   ("Basketball", ["basketball", "jump shot", "layup", "dunk", "free throw"]),
   ("Soccer", ["soccer", "football", "kick", "dribbling"]),
   ("Yoga", ["yoga", "downward dog", "warrior", "tree pose", "sun salutation"]),
   ("Martial Arts",
    ["martial arts", "karate", "taekwondo", "judo", "boxing", "kickboxing", "mma"]),
   ("Rock Climbing", ["climbing", "bouldering", "rock climbing"]),
   ("CrossFit", ["crossfit", "wod", "amrap", "emom"]),
   ("Pilates", ["pilates"]),
   ("Dance", ["dance", "ballet", "hip hop", "contemporary"]),
   ("Golf", ["golf", "swing", "putt", "drive"]),
   ("Volleyball", ["volleyball", "spike", "serve", "bump"])]

/-- The keyword-match `for` loop with `break` (main.py lines 270-273). -/
def keywordScan : List (String × List String) → String → Option String
  | [], _ => none
  | (category, keywords) :: rest, exercise_name =>
      if keywords.any (fun keyword => strContains exercise_name keyword)
      then some category
      else keywordScan rest exercise_name

/-- The category-inference part of `save_routine` (main.py lines 244-277):
given the extracted `sport_category` field and the `exercise` field,
produce the category stored with the routine row. -/
def save_routine_category (sport_category : String) (exercise : String) : String :=
  if sport_category == "Other" || sport_category == "" then
    let exercise_name := pyLower exercise
    let inferred :=
      match keywordScan category_keywords exercise_name with
      | some category => category
      | none => sport_category
    if inferred == "" || inferred == "Other" then "General Fitness" else inferred
  else sport_category

lemma scanForPartialMatch_eq_find (table : List (String × String)) (t : String) :
    scanForPartialMatch table t =
      (table.find? (fun p => strContains t p.1 || strContains p.1 t)).map
        (fun p => p.2) := by
  induction table with
  | nil => rfl
  | cons p rest ih =>
    obtain ⟨k, c⟩ := p
    by_cases h : (strContains t k || strContains k t) = true
    · simp [scanForPartialMatch, List.find?, h]
    · simp only [Bool.not_eq_true] at h
      simp [scanForPartialMatch, List.find?, h, ih]

/-- C7: `categorize_sport` first normalizes (lower-case, trim) and returns
the category of an exact keyword-table hit when one exists; otherwise the
category of the first table entry (in definition order) whose key is a
substring of the input or contains the input; otherwise `"Other"`.  It is
a total function with no side effects; the three spec examples evaluate
as stated. -/
theorem categorize_sport_spec :
    (∀ exercise : String,
      categorize_sport exercise =
        match SPORT_CATEGORIES.find?
            (fun p => p.1 == pyStrip (pyLower exercise)) with
        | some p => p.2
        | none =>
          match SPORT_CATEGORIES.find?
              (fun p => strContains (pyStrip (pyLower exercise)) p.1 ||
                        strContains p.1 (pyStrip (pyLower exercise))) with
          | some p => p.2
          | none => "Other") ∧
    categorize_sport "Soccer" = "Ball Sports" ∧
    categorize_sport "competitive rock climbing" = "Outdoor" ∧
    categorize_sport "underwater basket weaving" = "Other" := by
  refine ⟨?_, by decide, by decide, by decide⟩
  intro exercise
  simp only [categorize_sport, dictLookup]
  rw [scanForPartialMatch_eq_find]
  cases hf : SPORT_CATEGORIES.find? (fun p => p.1 == pyStrip (pyLower exercise)) with
  | some p => simp
  | none =>
    cases hp : SPORT_CATEGORIES.find?
        (fun p => strContains (pyStrip (pyLower exercise)) p.1 ||
                  strContains p.1 (pyStrip (pyLower exercise))) with
    | some p => simp
    | none => simp

lemma toLower_pySpace {c : Char} (h : isPySpace c = true) : Char.toLower c = c := by
  simp only [isPySpace, Bool.or_eq_true, beq_iff_eq] at h
  rcases h with ((((h | h) | h) | h) | h) | h <;> subst h <;> decide

lemma pyStrip_pyLower_all_space {s : String} (h : s.toList.all isPySpace = true) :
    pyStrip (pyLower s) = "" := by
  have hmap : (pyLower s).toList = s.toList.map Char.toLower := rfl
  have hall : ∀ c ∈ (pyLower s).toList, isPySpace c = true := by
    rw [hmap]
    intro c hc
    obtain ⟨c0, hc0, rfl⟩ := List.mem_map.mp hc
    have h0 : isPySpace c0 = true := List.all_eq_true.mp h c0 hc0
    rw [toLower_pySpace h0]
    exact h0
  unfold pyStrip
  rw [List.dropWhile_eq_nil_iff.mpr hall]
  rfl

/-- C10: any input that is empty or all whitespace normalizes to the empty
string, which the partial-match rule matches against the first table entry
(the empty string is a substring of every key), so `categorize_sport`
returns `"Ball Sports"` — the category of the first entry — rather than
the fallback `"Other"`. -/
theorem all_space_input_gives_ball_sports (s : String)
    (h : s.toList.all isPySpace = true) :
    categorize_sport s = "Ball Sports" := by
  unfold categorize_sport
  rw [pyStrip_pyLower_all_space h]
  decide

/-- Witness for C10 at the three-space input. -/
theorem all_space_input_gives_ball_sports_witness :
    ("   ".toList.all isPySpace = true) ∧ categorize_sport "   " = "Ball Sports" :=
  ⟨by decide, all_space_input_gives_ball_sports "   " (by decide)⟩

lemma keywordScan_eq_find (table : List (String × List String)) (name : String) :
    keywordScan table name =
      (table.find? (fun p => p.2.any (fun kw => strContains name kw))).map
        (fun p => p.1) := by
  induction table with
  | nil => rfl
  | cons p rest ih =>
    obtain ⟨cat, kws⟩ := p
    by_cases h : (kws.any (fun kw => strContains name kw)) = true
    · simp [keywordScan, List.find?, h]
    · simp only [Bool.not_eq_true] at h
      simp [keywordScan, List.find?, h, ih]

/-- C8: persisting a routine whose classifier category is `"Other"` or
empty scans the broader keyword table against the lower-cased exercise
name and stores the first matching category in table order, defaulting to
`"General Fitness"` when nothing matches; a specific category is stored
unchanged; `"5k training run"` under classifier output `"Other"` resolves
to `"Running"`. -/
theorem save_routine_category_spec :
    (∀ sport_category exercise : String,
      save_routine_category sport_category exercise =
        if sport_category = "Other" ∨ sport_category = "" then
          match category_keywords.find?
              (fun p => p.2.any (fun kw => strContains (pyLower exercise) kw)) with
          | some p => p.1
          | none => "General Fitness"
        else sport_category) ∧
    save_routine_category "Other" "5k training run" = "Running" := by
  refine ⟨?_, by decide⟩
  intro sport_category exercise
  simp only [save_routine_category]
  rw [keywordScan_eq_find]
  by_cases h : sport_category = "Other" ∨ sport_category = ""
  · have hb : (sport_category == "Other" || sport_category == "") = true := by
      rcases h with h | h <;> simp [h]
    simp only [hb, if_true, h, if_pos h]
    cases hfind : category_keywords.find?
        (fun p => p.2.any (fun kw => strContains (pyLower exercise) kw)) with
    | none =>
      rcases h with h | h <;> simp [h]
    | some p =>
      have hp : p ∈ category_keywords := List.mem_of_find?_eq_some hfind
      have hall : ∀ q ∈ category_keywords, (q.1 == "" || q.1 == "Other") = false := by
        decide
      simp [hall p hp]
  · have hb : (sport_category == "Other" || sport_category == "") = false := by
      push_neg at h
      simp [h.1, h.2]
    simp [hb, h]

/-- The spec reading of one parsed `warmups` element (spec.md §4.2 step 6):
kept exactly when it is a mapping whose trimmed name is non-empty and
whose coerced duration — `duration_seconds`, falling back to `duration`,
defaulting to 0, coercion failure giving 0 — is strictly positive, with
any `movement_type` outside the five-member vocabulary (absent values
included) replaced by `"Mobility"`. -/
def spec_keep_move (item : Json) : Option Warmup :=
  match item with
  | .obj fields =>
    let name := pyStrip (pyStr (jget fields "name" (.str "")))
    let dur :=
      (pyInt (jget fields "duration_seconds" (jget fields "duration" (.num 0)))).getD 0
    let notes := pyStrip (pyStr (jget fields "notes" (.str "")))
    let mt := pyStrip (pyStr (jget fields "movement_type" (.str "Mobility")))
    if name ≠ "" ∧ 0 < dur then
      some ⟨name, dur, notes, if mt ∈ valid_types then mt else "Mobility"⟩
    else none
  | _ => none

/-- C5: the validation loop keeps exactly the elements the spec keeps, in
their original order: `extract_warmups` is the `filterMap` of the spec
per-element projection. -/
theorem extract_warmups_spec (items : List Json) :
    extract_warmups items = items.filterMap spec_keep_move := by
  induction items with
  | nil => rfl
  | cons item rest ih =>
    cases item with
    | obj fields =>
      simp only [extract_warmups, spec_keep_move, List.filterMap_cons, ih]
      by_cases h1 : pyStrip (pyStr (jget fields "name" (.str ""))) = ""
      · simp [h1]
      · by_cases h2 : 0 <
            (pyInt (jget fields "duration_seconds" (jget fields "duration" (.num 0)))).getD 0
        · simp only [h1, h2, ne_eq, not_false_iff, and_self, if_true,
            decide_not, decide_eq_true_eq]
          have hb : (decide ¬(pyStrip (pyStr (jget fields "name" (.str ""))) = "") &&
              decide ((pyInt (jget fields "duration_seconds"
                (jget fields "duration" (.num 0)))).getD 0 > 0)) = true := by
            simp [h1, h2]
          simp [h1, h2, List.elem_iff]
        · simp [h1, h2]
    | null => simpa [extract_warmups, spec_keep_move, List.filterMap_cons] using ih
    | bool b => simpa [extract_warmups, spec_keep_move, List.filterMap_cons] using ih
    | num n => simpa [extract_warmups, spec_keep_move, List.filterMap_cons] using ih
    | str s => simpa [extract_warmups, spec_keep_move, List.filterMap_cons] using ih
    | arr xs => simpa [extract_warmups, spec_keep_move, List.filterMap_cons] using ih

/-- The spec reading of the brace span (spec.md §4.2 step 2): the index of
the first opening brace and of the last closing brace, provided the former
precedes the latter. -/
def brace_span (text : String) : Option (Nat × Nat) :=
  match text.toList.findIdx? (fun x => x == '\x7b'),
        text.toList.reverse.findIdx? (fun x => x == '\x7d') with
  | some i, some j =>
      if i < text.toList.length - 1 - j then
        some (i, text.toList.length - 1 - j)
      else none
  | _, _ => none

/-- C6: `_safe_json_load` parses the whole text; on failure it parses the
substring from the first opening brace to the last closing brace; when
there is no such span or that parse also fails it returns no document with
an error message, carrying the JSON parser's message in the latter case;
empty input yields no document with the empty-output diagnostic.  Stated
for every JSON library behaviour `loads` and checked on two concrete
inputs for a library that always fails. -/
theorem safe_json_load_spec :
    (∀ (loads : String → Except String Json) (text : String),
      safe_json_load loads text =
        if text = "" then (none, some "Empty model output.")
        else
          match loads text with
          | .ok v => (some v, none)
          | .error _ =>
            match brace_span text with
            | some (i, j) =>
              match loads (pySlice text i (j + 1)) with
              | .ok v => (some v, none)
              | .error e => (none, some ("JSON parse error: " ++ e))
            | none => (none, some "No JSON object found in model output.")) ∧
    safe_json_load (fun _ => .error "bad") "" =
      (none, some "Empty model output.") ∧
    safe_json_load (fun _ => .error "bad") "no braces here" =
      (none, some "No JSON object found in model output.") ∧
    safe_json_load (fun _ => .error "bad") "text \x7b\x7d text" =
      (none, some "JSON parse error: bad") := by
  refine ⟨?_, rfl, rfl, rfl⟩
  intro loads text
  by_cases hempty : text = ""
  · simp [safe_json_load, hempty]
  · unfold safe_json_load
    rw [if_neg hempty, if_neg hempty]
    cases loads text with
    | ok v => rfl
    | error msg =>
      unfold brace_span
      cases hf : text.toList.findIdx? (fun x => x == '\x7b') with
      | none =>
        have hstart : pyFind text '\x7b' = -1 := by
          unfold pyFind
          rw [hf]
        rw [hstart]
        have hcond : ¬ ((-1 : Int) ≠ -1 ∧ pyRFind text '\x7d' ≠ -1 ∧
            pyRFind text '\x7d' > -1) := fun hc => hc.1 rfl
        rw [if_neg hcond]
      | some i =>
        have hstart : pyFind text '\x7b' = (i : Int) := by
          unfold pyFind
          rw [hf]
        rw [hstart]
        cases hr : text.toList.reverse.findIdx? (fun x => x == '\x7d') with
        | none =>
          have hstop : pyRFind text '\x7d' = -1 := by
            unfold pyRFind
            rw [hr]
          rw [hstop]
          have hcond : ¬ ((i : Int) ≠ -1 ∧ (-1 : Int) ≠ -1 ∧ (-1 : Int) > (i : Int)) :=
            fun hc => hc.2.1 rfl
          rw [if_neg hcond]
        | some j =>
          have hjlt : j < text.toList.length := by
            have h1 := (List.findIdx?_eq_some_iff_findIdx_eq.mp hr).1
            simpa using h1
          have hstop : pyRFind text '\x7d' =
              (text.toList.length : Int) - 1 - (j : Int) := by
            unfold pyRFind
            rw [hr]
          rw [hstop]
          by_cases hlt : i < text.toList.length - 1 - j
          · have hcond : ((i : Int) ≠ -1 ∧
                (text.toList.length : Int) - 1 - (j : Int) ≠ -1 ∧
                (text.toList.length : Int) - 1 - (j : Int) > (i : Int)) := by
              refine ⟨by omega, by omega, by omega⟩
            rw [if_pos hcond]
            simp only [hlt, if_true]
            have ht1 : ((i : Int)).toNat = i := rfl
            have ht2 : ((text.toList.length : Int) - 1 - (j : Int)).toNat =
                text.toList.length - 1 - j := by omega
            rw [ht1, ht2]
          · have hcond : ¬ ((i : Int) ≠ -1 ∧
                (text.toList.length : Int) - 1 - (j : Int) ≠ -1 ∧
                (text.toList.length : Int) - 1 - (j : Int) > (i : Int)) := by
              intro hc
              have h2 := hc.2.2
              omega
            rw [if_neg hcond]
            simp only [hlt, if_false]

/-- C4: the routine returned by `generate_warmups` has its `error` field
set exactly when its `warmups` sequence is empty, and the stripped raw
provider text is always carried in the result; the parser boundary never
raises (the embedding is a total function for every library behaviour
`loads` and every provider output). -/
theorem generate_warmups_error_iff_empty
    (loads : String → Except String Json)
    (exercise muscle_groups output_text : String) :
    ((generate_warmups loads exercise muscle_groups output_text).error ≠ none ↔
      (generate_warmups loads exercise muscle_groups output_text).warmups = []) ∧
    (generate_warmups loads exercise muscle_groups output_text).raw =
      pyStrip output_text := by
  simp only [generate_warmups]
  split
  next h =>
    refine ⟨?_, rfl⟩
    simp
  next h =>
    refine ⟨?_, rfl⟩
    rw [List.isEmpty_iff] at h
    simp [h]

end FlexMaster
